import Mathlib

/-!
Verification of `tensorboard/plugins/hparams/api.py` against its design
specification.  The Python module is a validating facade over a wire schema
(`api_pb2`) and a low-level summary builder (`summary.experiment_pb`); both
collaborators live outside the verified file and are modelled here from the
specification of their interfaces.  Python runtime values are embedded as
`PyVal`, Python's `isinstance` (with `bool` a subtype of `int`) as
`isinstance`, raised exceptions as `Except PyError`, and the in-place stable
`list.sort()` as the structurally recursive `pySort`.
-/

/-- The Python types relevant to the module: the four legal domain dtypes
plus `other` for any further runtime type (e.g. `list`), which the
validation code must reject. -/
inductive PyTy
  | int
  | float
  | bool
  | str
  | other (tyname : String)
deriving DecidableEq

/-- A Python runtime value of one of the four scalar types.  Floats are
modelled as rationals: the module performs no float arithmetic, only order
comparisons, on which finite doubles and their rational images agree. -/
inductive PyVal
  | int (n : Int)
  | float (q : ℚ)
  | bool (b : Bool)
  | str (s : String)
deriving DecidableEq

/-- Python's `type(v)`. -/
def typeOf : PyVal → PyTy
  | .int _ => .int
  | .float _ => .float
  | .bool _ => .bool
  | .str _ => .str

/-- Python's `isinstance(v, t)`.  Note `isinstance(True, int)` is `True`:
`bool` is a subtype of `int` in Python. -/
def isinstance : PyVal → PyTy → Bool
  | .int _, .int => true
  | .bool _, .int => true
  | .bool _, .bool => true
  | .float _, .float => true
  | .str _, .str => true
  | _, _ => false

/-- Numeric value of a Python scalar, with `bool` read as `0`/`1` as Python
does in comparisons.  (The `str` case is a junk value: the module never
compares a string with a number.) -/
def pyToRat : PyVal → ℚ
  | .int n => (n : ℚ)
  | .float q => q
  | .bool b => if b then 1 else 0
  | .str _ => 0

/-- Python's `<=` on the values the module ever compares: numeric order
between numbers (`bool` as `0`/`1`), lexicographic order between strings.
The cross-kind cases are fixed arbitrarily (strings above numbers) so that
`pyLe` is a total preorder; validated inputs never reach them. -/
def pyLe : PyVal → PyVal → Bool
  | .str s, .str t => decide (s ≤ t)
  | .str _, _ => false
  | _, .str _ => true
  | a, b => decide (pyToRat a ≤ pyToRat b)

/-- Python's `>` on comparable values, as used by the bound checks. -/
def pyGt (a b : PyVal) : Bool := !(pyLe a b)

/-- Insert `x` into a sorted list, before the first element it is `le` to.
Building block of `pySort`. -/
def pyInsert {α : Type} (le : α → α → Bool) (x : α) : List α → List α
  | [] => [x]
  | y :: ys => if le x y then x :: y :: ys else y :: pyInsert le x ys

/-- Stable ascending sort; the model of Python's `list.sort()` (Python's
sort is also stable, and a stable sort is determined by the order). -/
def pySort {α : Type} (le : α → α → Bool) : List α → List α
  | [] => []
  | x :: xs => pyInsert le x (pySort le xs)

/-- Modelled from the spec: the enumerated hyperparameter type tags of the
wire schema (`api_pb2.DataType`); the integer-specific tag is intentionally
unavailable. -/
inductive DataType
  | DATA_TYPE_UNSET
  | DATA_TYPE_FLOAT64
  | DATA_TYPE_BOOL
  | DATA_TYPE_STRING
deriving DecidableEq

/-- Modelled from the spec: the enumerated dataset kinds of the wire schema
(`api_pb2.DatasetType`). -/
inductive DatasetType
  | DATASET_TRAINING
  | DATASET_VALIDATION
deriving DecidableEq

/-- Modelled from the spec: the interval sub-record of the wire schema,
with a floating-point numeric field for each bound. -/
structure IntervalPb where
  min_value : ℚ
  max_value : ℚ
deriving DecidableEq

/-- Modelled from the spec: the hyperparameter-info record of the wire
schema (`api_pb2.HParamInfo`): name, description, display name, a type tag,
an interval domain sub-record and a discrete-values domain sub-field.
Every field defaults to unset/empty as proto fields do. -/
structure HParamInfo where
  name : Option String := none
  description : Option String := none
  display_name : Option String := none
  type : DataType := .DATA_TYPE_UNSET
  domain_interval : Option IntervalPb := none
  domain_discrete : List PyVal := []
deriving DecidableEq

/-- Modelled from the spec: the metric-name sub-record of the wire schema
(`api_pb2.MetricName`), holding `group` and `tag`. -/
structure MetricName where
  group : Option String
  tag : Option String
deriving DecidableEq

/-- Modelled from the spec: the metric-info record of the wire schema
(`api_pb2.MetricInfo`). -/
structure MetricInfo where
  name : MetricName
  display_name : Option String
  description : Option String
  dataset_type : Option DatasetType
deriving DecidableEq

/-- The Python exceptions the module can raise. -/
inductive PyError
  | typeError
  | valueError
  | keyError
deriving DecidableEq

/-- The `Domain` hierarchy as a sum type: `IntInterval`, `RealInterval` and
`Discrete`, each carrying the state set by its constructor.  A raw
`Domain.discrete` value may carry an illegal dtype; the public constructor
`Discrete.make` never produces one. -/
inductive Domain
  | intInterval (min_value max_value : PyVal)
  | realInterval (min_value max_value : PyVal)
  | discrete (values : List PyVal) (dtype : PyTy)
deriving DecidableEq

/-- The `dtype` property of each `Domain` variant. -/
def Domain.dtype : Domain → PyTy
  | .intInterval _ _ => .int
  | .realInterval _ _ => .float
  | .discrete _ dt => dt

/-- The `min_value` property (intervals only). -/
def Domain.min_value : Domain → Option PyVal
  | .intInterval mn _ => some mn
  | .realInterval mn _ => some mn
  | .discrete _ _ => none

/-- The `max_value` property (intervals only). -/
def Domain.max_value : Domain → Option PyVal
  | .intInterval _ mx => some mx
  | .realInterval _ mx => some mx
  | .discrete _ _ => none

/-- The `values` property of a `Discrete` domain (`list(self._values)`,
returned as a copy). -/
def Domain.values : Domain → List PyVal
  | .discrete vals _ => vals
  | _ => []

/-- `IntInterval.__init__` (api.py lines 207-225): `TypeError` unless both
bounds satisfy `isinstance(-, int)`, then `ValueError` if
`min_value > max_value`, else success with the bounds stored verbatim. -/
def IntInterval.make (min_value max_value : PyVal) : Except PyError Domain :=
  if !(isinstance min_value PyTy.int) then .error .typeError
  else if !(isinstance max_value PyTy.int) then .error .typeError
  else if pyGt min_value max_value then .error .valueError
  else .ok (.intInterval min_value max_value)

/-- `RealInterval.__init__` (api.py lines 254-272): same shape with
`isinstance(-, float)`. -/
def RealInterval.make (min_value max_value : PyVal) : Except PyError Domain :=
  if !(isinstance min_value PyTy.float) then .error .typeError
  else if !(isinstance max_value PyTy.float) then .error .typeError
  else if pyGt min_value max_value then .error .valueError
  else .ok (.realInterval min_value max_value)

/-- The tail of `Discrete.__init__` (api.py lines 327-336), after the dtype
has been resolved: `ValueError` if the dtype is outside
`(int, float, bool, str)`, `TypeError` if some element fails `isinstance`
against it, else success with the values sorted. -/
def discreteCheck (values : List PyVal) (dt : PyTy) : Except PyError Domain :=
  if dt ∈ ([PyTy.int, PyTy.float, PyTy.bool, PyTy.str] : List PyTy) then
    if values.all (fun v => isinstance v dt) then
      .ok (.discrete (pySort pyLe values) dt)
    else .error .typeError
  else .error .valueError

/-- `Discrete.__init__` (api.py lines 304-336): resolve the dtype — the
explicit argument if given, else the type of the first element, with
`ValueError` on an empty list and no dtype — then validate and sort. -/
def Discrete.make (values : List PyVal) (dtype : Option PyTy) : Except PyError Domain :=
  match dtype, values with
  | none, [] => .error .valueError
  | none, v :: _ => discreteCheck values (typeOf v)
  | some t, _ => discreteCheck values t

/-- The dict lookup in `Discrete.update_hparam_info` (api.py lines
353-358): `int` and `float` map to the float64 tag, `bool` and `str` to
their own tags, and any other dtype raises `KeyError`. -/
def dtypeLookup : PyTy → Except PyError DataType
  | .int => .ok .DATA_TYPE_FLOAT64
  | .float => .ok .DATA_TYPE_FLOAT64
  | .bool => .ok .DATA_TYPE_BOOL
  | .str => .ok .DATA_TYPE_STRING
  | .other _ => .error .keyError

/-- `update_hparam_info` of each `Domain` variant (api.py lines 245-248,
292-295, 352-360).  Intervals set the type tag to float64 and both interval
bounds (integers coerced into the numeric field); `Discrete` looks up the
type tag, clears the discrete sub-field (`ClearField`) and then extends it
with the stored values. -/
def Domain.update_hparam_info : Domain → HParamInfo → Except PyError HParamInfo
  | .intInterval mn mx, hparam_info =>
      .ok { hparam_info with
              type := .DATA_TYPE_FLOAT64,
              domain_interval := some ⟨pyToRat mn, pyToRat mx⟩ }
  | .realInterval mn mx, hparam_info =>
      .ok { hparam_info with
              type := .DATA_TYPE_FLOAT64,
              domain_interval := some ⟨pyToRat mn, pyToRat mx⟩ }
  | .discrete vals dt, hparam_info =>
      match dtypeLookup dt with
      | .error e => .error e
      | .ok tag =>
          let hparam_info := { hparam_info with type := tag }
          let hparam_info := { hparam_info with domain_discrete := [] }
          .ok { hparam_info with
                  domain_discrete := hparam_info.domain_discrete ++ vals }

/-- An `HParam` value: name, optional domain, display metadata. -/
structure HParam where
  name : Option String
  domain : Option Domain
  display_name : Option String
  description : Option String
deriving DecidableEq

/-- The `domain` argument of `HParam.__init__` as the caller can supply it:
`None`, a `Domain` instance, or some other Python value. -/
inductive DomainArg
  | pyNone
  | dom (d : Domain)
  | notDomain (v : PyVal)
deriving DecidableEq

/-- `HParam.__init__` (api.py lines 126-146): `ValueError` unless the
domain argument is a `Domain` instance or `None`. -/
def HParam.make (name : Option String) (domain : DomainArg)
    (display_name description : Option String) : Except PyError HParam :=
  match domain with
  | .pyNone => .ok ⟨name, none, display_name, description⟩
  | .dom d => .ok ⟨name, some d, display_name, description⟩
  | .notDomain _ => .error .valueError

/-- A `Metric` value: tag, group, display metadata, optional dataset kind. -/
structure Metric where
  tag : Option String
  group : Option String
  display_name : Option String
  description : Option String
  dataset_type : Option DatasetType
deriving DecidableEq

/-- The sentinel constant `Metric.TRAINING`. -/
def Metric.TRAINING : DatasetType := .DATASET_TRAINING

/-- The sentinel constant `Metric.VALIDATION`. -/
def Metric.VALIDATION : DatasetType := .DATASET_VALIDATION

/-- The `dataset_type` argument of `Metric.__init__` as the caller can
supply it: `None`, one of the two sentinel constants, or some other Python
value (e.g. the string `"bogus"`). -/
inductive DatasetTypeArg
  | pyNone
  | dataset (t : DatasetType)
  | notDataset (v : PyVal)
deriving DecidableEq

/-- `Metric.__init__` (api.py lines 373-403): `ValueError` unless the
dataset-type argument is in `(None, Metric.TRAINING, Metric.VALIDATION)`;
every other argument is stored verbatim, unvalidated. -/
def Metric.make (tag group display_name description : Option String)
    (dataset_type : DatasetTypeArg) : Except PyError Metric :=
  match dataset_type with
  | .pyNone => .ok ⟨tag, group, display_name, description, none⟩
  | .dataset t => .ok ⟨tag, group, display_name, description, some t⟩
  | .notDataset _ => .error .valueError

/-- `Metric.as_proto` (api.py lines 405-414): a `MetricInfo` record with a
nested name holding `group` and `tag` verbatim and the remaining fields
copied verbatim. -/
def Metric.as_proto (m : Metric) : MetricInfo :=
  ⟨⟨m.group, m.tag⟩, m.display_name, m.description, m.dataset_type⟩

/-- An `Experiment` value (list contents; the aliasing behaviour of the
list-valued members is modelled separately by `PyHeap`). -/
structure Experiment where
  hparams : List HParam
  metrics : List Metric
  user : Option String
  description : Option String
  time_created_secs : ℚ

/-- `Experiment.__init__` (api.py lines 41-67): stores the arguments, with
the creation time defaulting to the current wall clock `now` sampled at
construction. -/
def Experiment.make (hparams : List HParam) (metrics : List Metric)
    (user description : Option String) (time_created_secs : Option ℚ)
    (now : ℚ) : Experiment :=
  ⟨hparams, metrics, user, description, time_created_secs.getD now⟩

/-- The body of the `for hparam in self._hparams` loop of
`Experiment.summary_pb` (api.py lines 99-108): build an `HParamInfo`
carrying the hparam's name, description and display name; if the domain is
not `None` let it update the record; append the record. -/
def hparamInfoStep (acc : List HParamInfo) (hparam : HParam) :
    Except PyError (List HParamInfo) := do
  let info : HParamInfo :=
    { name := hparam.name,
      description := hparam.description,
      display_name := hparam.display_name }
  let info ← match hparam.domain with
    | some domain => domain.update_hparam_info info
    | none => Except.ok info
  Except.ok (acc ++ [info])

/-- `Experiment.summary_pb` (api.py lines 89-116): build the
hyperparameter-info records in hparams order, render each metric with
`as_proto` in metrics order, and delegate to the external assembly
function, returning its envelope unmodified.  The assembly collaborator is
a parameter; `summary.experiment_pb` below is its spec-modelled instance. -/
def Experiment.summary_pb {E : Type} (e : Experiment)
    (experiment_pb : List HParamInfo → List MetricInfo → Option String →
      Option String → ℚ → E) : Except PyError E := do
  let hparam_infos ← e.hparams.foldlM hparamInfoStep ([] : List HParamInfo)
  let metric_infos := e.metrics.map Metric.as_proto
  Except.ok (experiment_pb hparam_infos metric_infos e.user e.description
    e.time_created_secs)

/-- Modelled from the spec: the opaque envelope produced by the external
experiment-assembly collaborator (`summary.experiment_pb`), recording the
two field lists and the metadata it was given. -/
structure ExperimentPb where
  hparam_infos : List HParamInfo
  metric_infos : List MetricInfo
  user : Option String
  description : Option String
  time_created_secs : ℚ
deriving DecidableEq

/-- Modelled from the spec: the external experiment-assembly function,
`assemble(hparam_infos, metric_infos, user, description,
time_created_secs) -> envelope`, treated as opaque by the module. -/
def summary.experiment_pb : List HParamInfo → List MetricInfo →
    Option String → Option String → ℚ → ExperimentPb :=
  ExperimentPb.mk

/-- A heap of Python list objects of element type `α`, for the aliasing
behaviour of `Experiment`'s list-valued members: a cell per list object,
addressed by allocation index. -/
structure PyHeap (α : Type) where
  cells : List (List α)

/-- Contents of the list object at address `r`. -/
def PyHeap.read {α : Type} (h : PyHeap α) (r : Nat) : List α :=
  h.cells.getD r []

/-- Allocate a fresh list object with contents `xs`; returns the new heap
and the fresh address. -/
def PyHeap.alloc {α : Type} (h : PyHeap α) (xs : List α) : PyHeap α × Nat :=
  (⟨h.cells ++ [xs]⟩, h.cells.length)

/-- In-place mutation of the list object at address `r` (any combination of
Python `append`/`insert`/slice assignment, summarised by its result). -/
def PyHeap.write {α : Type} (h : PyHeap α) (r : Nat) (xs : List α) : PyHeap α :=
  ⟨h.cells.set r xs⟩

/-- Python's `list(xs)`: allocate a fresh list object holding a copy of the
contents of the object at `src`.  This is both what
`Experiment.__init__` does to each input list (api.py lines 61-62) and
what the `hparams`/`metrics` accessors return (api.py lines 69-75). -/
def PyHeap.listCopy {α : Type} (h : PyHeap α) (src : Nat) : PyHeap α × Nat :=
  h.alloc (h.read src)

/-- The record the `summary_pb` loop builds before consulting the domain:
name, description and display name copied from the `HParam`, everything
else at its proto default. -/
def baseHParamInfo (hp : HParam) : HParamInfo :=
  { name := hp.name,
    description := hp.description,
    display_name := hp.display_name }

/-- The type tag each dtype is mapped to, per the specification's output
mapping: float64 for `int` (the integer tag being a known unimplemented
case) and `float`, the boolean tag for `bool`, the string tag for `str`. -/
def dtypeTag : PyTy → DataType
  | .int => .DATA_TYPE_FLOAT64
  | .float => .DATA_TYPE_FLOAT64
  | .bool => .DATA_TYPE_BOOL
  | .str => .DATA_TYPE_STRING
  | .other _ => .DATA_TYPE_UNSET

/-- Specification-side description of `update_hparam_info`: set the type
tag, and overwrite exactly the domain sub-field of the variant, leaving
every other field of the record untouched. -/
def updateSpec : Domain → HParamInfo → HParamInfo
  | .intInterval mn mx, info =>
      { info with type := .DATA_TYPE_FLOAT64,
                  domain_interval := some ⟨pyToRat mn, pyToRat mx⟩ }
  | .realInterval mn mx, info =>
      { info with type := .DATA_TYPE_FLOAT64,
                  domain_interval := some ⟨pyToRat mn, pyToRat mx⟩ }
  | .discrete vals dt, info =>
      { info with type := dtypeTag dt, domain_discrete := vals }

/-- Specification-side description of the record `summary_pb` emits for one
`HParam`: the base record, updated by the domain exactly when one is
present. -/
def hparamInfoSpec (hp : HParam) : HParamInfo :=
  match hp.domain with
  | none => baseHParamInfo hp
  | some d => updateSpec d (baseHParamInfo hp)

/-- The class invariant each `Domain` constructor establishes: interval
bounds of the right kind in order, and discrete values all instances of a
legal dtype, stored sorted. -/
def Domain.invariant : Domain → Prop
  | .intInterval mn mx =>
      isinstance mn .int = true ∧ isinstance mx .int = true ∧
        pyGt mn mx = false
  | .realInterval mn mx =>
      isinstance mn .float = true ∧ isinstance mx .float = true ∧
        pyGt mn mx = false
  | .discrete vals dt =>
      dt ∈ ([PyTy.int, PyTy.float, PyTy.bool, PyTy.str] : List PyTy) ∧
        (∀ v ∈ vals, isinstance v dt = true) ∧
        vals.Pairwise (fun a b => pyLe a b = true)

/-- A domain obtained from one of the three public constructors. -/
def Domain.publiclyConstructed (d : Domain) : Prop :=
  (∃ mn mx, IntInterval.make mn mx = Except.ok d) ∨
    (∃ mn mx, RealInterval.make mn mx = Except.ok d) ∨
    (∃ vals dt, Discrete.make vals dt = Except.ok d)

/-- The dtype `Discrete.__init__` resolves for a given argument pair: the
explicit argument if present, else the type of the first element, else
nothing. -/
def resolveDtype (values : List PyVal) (dtype : Option PyTy) : Option PyTy :=
  match dtype, values with
  | some t, _ => some t
  | none, v :: _ => some (typeOf v)
  | none, [] => none

/-- `pyLe` is total. -/
theorem pyLe_total (a b : PyVal) : pyLe a b = true ∨ pyLe b a = true := by
  cases a <;> cases b <;> simp [pyLe] <;> exact le_total _ _

/-- `pyLe` is transitive. -/
theorem pyLe_trans (a b c : PyVal) (hab : pyLe a b = true)
    (hbc : pyLe b c = true) : pyLe a c = true := by
  cases a <;> cases b <;> cases c <;> simp_all [pyLe] <;> exact le_trans hab hbc

/-- `pyInsert` permutes the element onto the list. -/
theorem pyInsert_perm {α : Type} (le : α → α → Bool) (x : α) :
    ∀ l : List α, (pyInsert le x l).Perm (x :: l)
  | [] => List.Perm.refl _
  | y :: ys => by
      rw [pyInsert]
      split
      · exact List.Perm.refl _
      · exact ((pyInsert_perm le x ys).cons y).trans (List.Perm.swap x y ys)

/-- `pySort` is a permutation of its input (duplicates preserved). -/
theorem pySort_perm {α : Type} (le : α → α → Bool) :
    ∀ l : List α, (pySort le l).Perm l
  | [] => List.Perm.refl _
  | x :: xs => by
      rw [pySort]
      exact (pyInsert_perm le x (pySort le xs)).trans ((pySort_perm le xs).cons x)

/-- Inserting into a sorted list keeps it sorted, given a transitive total
comparison. -/
theorem pyInsert_sorted {α : Type} {le : α → α → Bool}
    (htrans : ∀ a b c, le a b = true → le b c = true → le a c = true)
    (htotal : ∀ a b, le a b = true ∨ le b a = true) (x : α) :
    ∀ {l : List α}, l.Pairwise (fun a b => le a b = true) →
      (pyInsert le x l).Pairwise (fun a b => le a b = true)
  | [], _ => by simp [pyInsert]
  | y :: ys, hl => by
      rw [pyInsert]
      rcases List.pairwise_cons.mp hl with ⟨hy, hys⟩
      split
      · rename_i hxy
        refine List.pairwise_cons.mpr ⟨?_, hl⟩
        intro b hb
        rcases List.mem_cons.mp hb with rfl | hb
        · exact hxy
        · exact htrans x y b hxy (hy b hb)
      · rename_i hxy
        refine List.pairwise_cons.mpr ⟨?_, pyInsert_sorted htrans htotal x hys⟩
        intro b hb
        have hb' := (pyInsert_perm le x ys).mem_iff.mp hb
        rcases List.mem_cons.mp hb' with rfl | hb'
        · exact (htotal _ y).resolve_left (by simpa using hxy)
        · exact hy b hb'

/-- `pySort` sorts, given a transitive total comparison. -/
theorem pySort_sorted {α : Type} {le : α → α → Bool}
    (htrans : ∀ a b c, le a b = true → le b c = true → le a c = true)
    (htotal : ∀ a b, le a b = true ∨ le b a = true) :
    ∀ l : List α, (pySort le l).Pairwise (fun a b => le a b = true)
  | [] => by simp [pySort]
  | x :: xs => by
      rw [pySort]
      exact pyInsert_sorted htrans htotal x (pySort_sorted htrans htotal xs)

/-- Bind on a successful `Except` computation reduces. -/
theorem exceptOkBind {ε α β : Type} (x : α) (f : α → Except ε β) :
    (Except.ok x : Except ε α) >>= f = f x := rfl

/-- Anything `discreteCheck` accepts satisfies the `Domain` invariant. -/
theorem discreteCheck_invariant {values : List PyVal} {dt : PyTy} {d : Domain}
    (h : discreteCheck values dt = Except.ok d) : d.invariant := by
  unfold discreteCheck at h
  split_ifs at h with hmem hall
  simp only [Except.ok.injEq] at h
  subst h
  refine ⟨hmem, ?_, @pySort_sorted PyVal pyLe pyLe_trans pyLe_total values⟩
  intro v hv
  exact (List.all_eq_true.mp hall) v ((pySort_perm pyLe values).mem_iff.mp hv)

/-- Every domain produced by a public constructor satisfies the invariant. -/
theorem Domain.invariant_of_publiclyConstructed {d : Domain}
    (h : d.publiclyConstructed) : d.invariant := by
  rcases h with ⟨mn, mx, h⟩ | ⟨mn, mx, h⟩ | ⟨vals, dt, h⟩
  · unfold IntInterval.make at h
    split_ifs at h with h1 h2 h3
    simp only [Except.ok.injEq] at h
    subst h
    exact ⟨by simpa using h1, by simpa using h2, by simpa using h3⟩
  · unfold RealInterval.make at h
    split_ifs at h with h1 h2 h3
    simp only [Except.ok.injEq] at h
    subst h
    exact ⟨by simpa using h1, by simpa using h2, by simpa using h3⟩
  · cases dt with
    | none =>
        cases vals with
        | nil => exact absurd h (by simp [Discrete.make])
        | cons v vs => exact discreteCheck_invariant h
    | some t => exact discreteCheck_invariant h

/-- On a domain satisfying the invariant, `update_hparam_info` succeeds and
produces exactly the record described by `updateSpec`. -/
theorem Domain.update_ok (d : Domain) (hd : d.invariant) (info : HParamInfo) :
    d.update_hparam_info info = Except.ok (updateSpec d info) := by
  cases d with
  | intInterval mn mx => rfl
  | realInterval mn mx => rfl
  | discrete vals dt =>
      rcases hd with ⟨hmem, -, -⟩
      cases dt <;> first
        | rfl
        | exact absurd hmem (by simp)

/-- The `summary_pb` loop over a list of hparams whose domains are publicly
constructed succeeds and appends exactly the specified records, in order. -/
theorem foldlM_hparamInfoStep (hps : List HParam)
    (hd : ∀ hp ∈ hps, ∀ d, hp.domain = some d → d.publiclyConstructed) :
    ∀ acc : List HParamInfo,
      hps.foldlM hparamInfoStep acc = Except.ok (acc ++ hps.map hparamInfoSpec) := by
  induction hps with
  | nil =>
      intro acc
      simp only [List.foldlM, List.map_nil, List.append_nil]
      rfl
  | cons hp hps ih =>
      intro acc
      have hstep : hparamInfoStep acc hp =
          Except.ok (acc ++ [hparamInfoSpec hp]) := by
        unfold hparamInfoStep
        cases hdom : hp.domain with
        | none => simp [hparamInfoSpec, hdom, baseHParamInfo, exceptOkBind]
        | some d =>
            have hinv := Domain.invariant_of_publiclyConstructed
              (hd hp (List.mem_cons_self _ _) d hdom)
            simp [hdom, Domain.update_ok d hinv, hparamInfoSpec, baseHParamInfo,
              exceptOkBind]
      rw [List.foldlM_cons, hstep, exceptOkBind,
        ih (fun hp' h' => hd hp' (List.mem_cons_of_mem _ h')) _]
      simp

/-- Claim C1: for every `Experiment` built from `HParam` and `Metric`
values (with publicly constructed domains), `summary_pb()` builds one
hyperparameter-info record per owned `HParam` carrying its name,
description and display name, lets the `HParam`'s domain update that
record exactly when the domain is non-null (leaving the type and domain
fields unset otherwise, per `hparamInfoSpec`/`baseHParamInfo`), collects
the records in `hparams` order, collects each `Metric.as_proto` in
`metrics` order, and returns unmodified the envelope that the external
assembly function produces from those two lists plus `user`,
`description` and `time_created_secs`. -/
theorem Experiment.summary_pb_spec {E : Type} (e : Experiment)
    (experiment_pb : List HParamInfo → List MetricInfo → Option String →
      Option String → ℚ → E)
    (hd : ∀ hp ∈ e.hparams, ∀ d, hp.domain = some d → d.publiclyConstructed) :
    e.summary_pb experiment_pb =
      Except.ok (experiment_pb (e.hparams.map hparamInfoSpec)
        (e.metrics.map Metric.as_proto) e.user e.description
        e.time_created_secs) := by
  unfold Experiment.summary_pb
  rw [foldlM_hparamInfoStep e.hparams hd [], exceptOkBind]
  simp

/-- Witness for C1: the spec's example, `HParam("lr",
domain=RealInterval(0.0, 1.0))` inside `Experiment([that], [])`, yields
exactly one hyperparameter-info entry named `"lr"` with the float64 tag
and interval bounds `(0, 1)`. -/
theorem Experiment.summary_pb_spec_witness :
    Experiment.summary_pb
        ⟨[⟨some "lr", some (.realInterval (.float 0) (.float 1)), none, none⟩],
          [], none, none, 0⟩ summary.experiment_pb =
      Except.ok (summary.experiment_pb
        [{ name := some "lr", type := .DATA_TYPE_FLOAT64,
           domain_interval := some ⟨0, 1⟩ }] [] none none 0) := by
  have hd : ∀ hp ∈ ([⟨some "lr",
      some (.realInterval (.float 0) (.float 1)), none, none⟩] : List HParam),
      ∀ d, hp.domain = some d → d.publiclyConstructed := by
    intro hp hmem d hdom
    rw [List.mem_singleton] at hmem
    subst hmem
    injection hdom with hdom
    subst hdom
    exact Or.inr (Or.inl ⟨.float 0, .float 1, rfl⟩)
  rw [Experiment.summary_pb_spec _ summary.experiment_pb hd]
  rfl

/-- Claim C4: for every `Experiment` whose hparams carry only publicly
constructed domains, `summary_pb()` raises no exception: it returns a
successful result for any assembly function, all validation errors
having been signalled at construction time. -/
theorem Experiment.summary_pb_no_error {E : Type} (e : Experiment)
    (experiment_pb : List HParamInfo → List MetricInfo → Option String →
      Option String → ℚ → E)
    (hd : ∀ hp ∈ e.hparams, ∀ d, hp.domain = some d → d.publiclyConstructed) :
    ∃ envelope, e.summary_pb experiment_pb = Except.ok envelope := by
  refine ⟨experiment_pb (e.hparams.map hparamInfoSpec)
    (e.metrics.map Metric.as_proto) e.user e.description
    e.time_created_secs, ?_⟩
  unfold Experiment.summary_pb
  rw [foldlM_hparamInfoStep e.hparams hd [], exceptOkBind]
  simp

/-- Witness for C4: a concrete experiment with one interval-domain hparam,
one discrete-domain hparam, one domain-free hparam and one metric
produces a successful summary. -/
theorem Experiment.summary_pb_no_error_witness :
    (Experiment.summary_pb
        ⟨[⟨some "lr", some (.realInterval (.float 0) (.float 1)), none, none⟩,
          ⟨some "units", some (.discrete [.int 32, .int 64] PyTy.int), none, none⟩,
          ⟨some "opt", none, none, none⟩],
         [⟨some "loss", none, none, none, some .DATASET_VALIDATION⟩],
         some "me", none, 42⟩ summary.experiment_pb).isOk = true := by
  have hd : ∀ hp ∈ ([⟨some "lr",
        some (.realInterval (.float 0) (.float 1)), none, none⟩,
      ⟨some "units", some (.discrete [.int 32, .int 64] PyTy.int), none, none⟩,
      ⟨some "opt", none, none, none⟩] : List HParam),
      ∀ d, hp.domain = some d → d.publiclyConstructed := by
    intro hp hmem d hdom
    simp only [List.mem_cons, List.not_mem_nil, or_false] at hmem
    rcases hmem with rfl | rfl | rfl
    · injection hdom with hdom
      subst hdom
      exact Or.inr (Or.inl ⟨.float 0, .float 1, rfl⟩)
    · injection hdom with hdom
      subst hdom
      exact Or.inr (Or.inr ⟨[.int 64, .int 32], none, rfl⟩)
    · exact absurd hdom (by simp)
  obtain ⟨env, henv⟩ :=
    Experiment.summary_pb_no_error
      ⟨[⟨some "lr", some (.realInterval (.float 0) (.float 1)), none, none⟩,
        ⟨some "units", some (.discrete [.int 32, .int 64] PyTy.int), none, none⟩,
        ⟨some "opt", none, none, none⟩],
       [⟨some "loss", none, none, none, some .DATASET_VALIDATION⟩],
       some "me", none, 42⟩ summary.experiment_pb hd
  rw [henv]
  rfl

/-- Claim C2: on every publicly constructed domain and every
hyperparameter-info record, a successful `update_hparam_info` sets the
type tag according to the variant (float64 for `IntInterval`,
`RealInterval` and `Discrete` with dtype `int` or `float`; the boolean
tag for dtype `bool`; the string tag for dtype `str`), sets exactly the
corresponding domain sub-field (the interval sub-record to the bounds for
the interval variants, the discrete sub-field — replacing any
pre-existing content — to the sorted stored values for `Discrete`), and
leaves every other field of the record unchanged. -/
theorem Domain.update_hparam_info_spec (d : Domain) (info r : HParamInfo)
    (hpc : d.publiclyConstructed)
    (hr : d.update_hparam_info info = Except.ok r) :
    (r.name = info.name ∧ r.description = info.description ∧
      r.display_name = info.display_name) ∧
    (∀ mn mx, d = .intInterval mn mx →
      r.type = .DATA_TYPE_FLOAT64 ∧
      r.domain_interval = some ⟨pyToRat mn, pyToRat mx⟩ ∧
      r.domain_discrete = info.domain_discrete) ∧
    (∀ mn mx, d = .realInterval mn mx →
      r.type = .DATA_TYPE_FLOAT64 ∧
      r.domain_interval = some ⟨pyToRat mn, pyToRat mx⟩ ∧
      r.domain_discrete = info.domain_discrete) ∧
    (∀ vals dt, d = .discrete vals dt →
      r.domain_interval = info.domain_interval ∧
      r.domain_discrete = vals ∧
      vals.Pairwise (fun a b => pyLe a b = true) ∧
      ((dt = .int ∨ dt = .float) → r.type = .DATA_TYPE_FLOAT64) ∧
      (dt = .bool → r.type = .DATA_TYPE_BOOL) ∧
      (dt = .str → r.type = .DATA_TYPE_STRING)) := by
  have hinv := Domain.invariant_of_publiclyConstructed hpc
  rw [Domain.update_ok d hinv info] at hr
  simp only [Except.ok.injEq] at hr
  subst hr
  cases d with
  | intInterval a b =>
      refine ⟨⟨rfl, rfl, rfl⟩, ?_, ?_, ?_⟩ <;> intro x y hxy
      · injection hxy with h1 h2
        subst h1
        subst h2
        exact ⟨rfl, rfl, rfl⟩
      · exact absurd hxy (by simp)
      · exact absurd hxy (by simp)
  | realInterval a b =>
      refine ⟨⟨rfl, rfl, rfl⟩, ?_, ?_, ?_⟩ <;> intro x y hxy
      · exact absurd hxy (by simp)
      · injection hxy with h1 h2
        subst h1
        subst h2
        exact ⟨rfl, rfl, rfl⟩
      · exact absurd hxy (by simp)
  | discrete vals dt =>
      rcases hinv with ⟨hmem, -, hsorted⟩
      refine ⟨⟨rfl, rfl, rfl⟩, ?_, ?_, ?_⟩
      · intro x y hxy
        exact absurd hxy (by simp)
      · intro x y hxy
        exact absurd hxy (by simp)
      · intro vals' dt' hdt
        injection hdt with h1 h2
        subst h1
        subst h2
        refine ⟨rfl, rfl, hsorted, ?_, ?_, ?_⟩
        · rintro (rfl | rfl) <;> rfl
        · rintro rfl
          rfl
        · rintro rfl
          rfl

/-- Witness for C2: updating an empty record with `IntInterval(1, 2)`
yields the float64 tag, the interval `(1, 2)` and an untouched discrete
sub-field. -/
theorem Domain.update_hparam_info_spec_witness :
    ({ type := .DATA_TYPE_FLOAT64,
       domain_interval := some ⟨pyToRat (.int 1), pyToRat (.int 2)⟩ } :
        HParamInfo).type = .DATA_TYPE_FLOAT64 ∧
    ({ type := .DATA_TYPE_FLOAT64,
       domain_interval := some ⟨pyToRat (.int 1), pyToRat (.int 2)⟩ } :
        HParamInfo).domain_interval =
      some ⟨pyToRat (.int 1), pyToRat (.int 2)⟩ ∧
    ({ type := .DATA_TYPE_FLOAT64,
       domain_interval := some ⟨pyToRat (.int 1), pyToRat (.int 2)⟩ } :
        HParamInfo).domain_discrete = ({} : HParamInfo).domain_discrete :=
  (Domain.update_hparam_info_spec (.intInterval (.int 1) (.int 2)) {}
      { type := .DATA_TYPE_FLOAT64,
        domain_interval := some ⟨pyToRat (.int 1), pyToRat (.int 2)⟩ }
      (Or.inl ⟨.int 1, .int 2, rfl⟩) rfl).2.1 (.int 1) (.int 2) rfl

/-- `update_hparam_info` on a discrete domain whose dtype lookup succeeds:
set the tag, clear the discrete sub-field and refill it with the stored
values. -/
theorem update_discrete_ok (vals : List PyVal) (dt : PyTy) (tag : DataType)
    (htag : dtypeLookup dt = Except.ok tag) (info : HParamInfo) :
    (Domain.discrete vals dt).update_hparam_info info =
      Except.ok { info with type := tag, domain_discrete := vals } := by
  cases dt <;> simp_all [dtypeLookup, Domain.update_hparam_info]

/-- Claim C3: for every value list the `Discrete` constructor accepts, the
stored values are a sorted copy of the input with duplicates preserved (a
permutation of the input, pairwise ordered under `pyLe`), and
`update_hparam_info` is idempotent: re-applying it to its own output
reproduces that output exactly, with no accumulation in the
discrete-values sub-field. -/
theorem Discrete.values_sorted_and_idempotent (values : List PyVal)
    (dtype : Option PyTy) (d : Domain)
    (h : Discrete.make values dtype = Except.ok d) :
    d.values.Perm values ∧
    d.values.Pairwise (fun a b => pyLe a b = true) ∧
    (∀ info r, d.update_hparam_info info = Except.ok r →
      d.update_hparam_info r = Except.ok r) := by
  have hd : ∃ t, d = Domain.discrete (pySort pyLe values) t ∧
      t ∈ ([PyTy.int, PyTy.float, PyTy.bool, PyTy.str] : List PyTy) := by
    have hcheck : ∀ t, discreteCheck values t = Except.ok d →
        d = Domain.discrete (pySort pyLe values) t ∧
          t ∈ ([PyTy.int, PyTy.float, PyTy.bool, PyTy.str] : List PyTy) := by
      intro t ht
      unfold discreteCheck at ht
      split_ifs at ht with hmem hall
      simp only [Except.ok.injEq] at ht
      exact ⟨ht.symm, hmem⟩
    cases dtype with
    | none =>
        cases values with
        | nil => exact absurd h (by simp [Discrete.make])
        | cons v vs => exact ⟨typeOf v, hcheck (typeOf v) h⟩
    | some t => exact ⟨t, hcheck t h⟩
  obtain ⟨t, rfl, hmem⟩ := hd
  refine ⟨?_, ?_, ?_⟩
  · exact pySort_perm pyLe values
  · exact @pySort_sorted PyVal pyLe pyLe_trans pyLe_total values
  · intro info r hr
    have htag : dtypeLookup t = Except.ok (dtypeTag t) := by
      simp only [List.mem_cons, List.mem_singleton, List.not_mem_nil,
        or_false] at hmem
      rcases hmem with rfl | rfl | rfl | rfl <;> rfl
    rw [update_discrete_ok _ _ _ htag info] at hr
    rw [update_discrete_ok _ _ _ htag r]
    simp only [Except.ok.injEq] at hr
    subst hr
    rfl

/-- Witness for C3: `Discrete([3, 1, 2])` stores `[1, 2, 3]`, a sorted
permutation of the input, and updating an already-updated record leaves
it unchanged. -/
theorem Discrete.values_sorted_and_idempotent_witness :
    Discrete.make [PyVal.int 3, PyVal.int 1, PyVal.int 2] none =
      Except.ok (Domain.discrete [PyVal.int 1, PyVal.int 2, PyVal.int 3]
        PyTy.int) ∧
    (Domain.discrete [PyVal.int 1, PyVal.int 2, PyVal.int 3]
        PyTy.int).values.Perm [PyVal.int 3, PyVal.int 1, PyVal.int 2] ∧
    (Domain.discrete [PyVal.int 1, PyVal.int 2, PyVal.int 3]
        PyTy.int).update_hparam_info
      { type := .DATA_TYPE_FLOAT64,
        domain_discrete := [PyVal.int 1, PyVal.int 2, PyVal.int 3] } =
      Except.ok
        { type := .DATA_TYPE_FLOAT64,
          domain_discrete := [PyVal.int 1, PyVal.int 2, PyVal.int 3] } := by
  have hmk : Discrete.make [PyVal.int 3, PyVal.int 1, PyVal.int 2] none =
      Except.ok (Domain.discrete [PyVal.int 1, PyVal.int 2, PyVal.int 3]
        PyTy.int) := rfl
  have h := Discrete.values_sorted_and_idempotent
    [PyVal.int 3, PyVal.int 1, PyVal.int 2] none
    (Domain.discrete [PyVal.int 1, PyVal.int 2, PyVal.int 3] PyTy.int) hmk
  exact ⟨hmk, h.1, h.2.2 {}
    { type := .DATA_TYPE_FLOAT64,
      domain_discrete := [PyVal.int 1, PyVal.int 2, PyVal.int 3] } rfl⟩

/-- Claim C5: `IntInterval(min, max)` and `RealInterval(min, max)` signal
a type error exactly when a bound fails the `isinstance` check for the
expected numeric kind (`int`, respectively `float`), signal a value error
exactly when both bounds pass it but `min > max`, and succeed — storing
the given bounds — exactly when both bounds pass it and `min ≤ max`
(degenerate `min = max` included). -/
theorem interval_construction_validation (mn mx : PyVal) :
    (IntInterval.make mn mx = Except.error PyError.typeError ↔
      ¬(isinstance mn PyTy.int = true ∧ isinstance mx PyTy.int = true)) ∧
    (IntInterval.make mn mx = Except.error PyError.valueError ↔
      isinstance mn PyTy.int = true ∧ isinstance mx PyTy.int = true ∧
        pyGt mn mx = true) ∧
    (IntInterval.make mn mx = Except.ok (Domain.intInterval mn mx) ↔
      isinstance mn PyTy.int = true ∧ isinstance mx PyTy.int = true ∧
        pyLe mn mx = true) ∧
    (RealInterval.make mn mx = Except.error PyError.typeError ↔
      ¬(isinstance mn PyTy.float = true ∧ isinstance mx PyTy.float = true)) ∧
    (RealInterval.make mn mx = Except.error PyError.valueError ↔
      isinstance mn PyTy.float = true ∧ isinstance mx PyTy.float = true ∧
        pyGt mn mx = true) ∧
    (RealInterval.make mn mx = Except.ok (Domain.realInterval mn mx) ↔
      isinstance mn PyTy.float = true ∧ isinstance mx PyTy.float = true ∧
        pyLe mn mx = true) := by
  cases h1 : isinstance mn PyTy.int <;> cases h2 : isinstance mx PyTy.int <;>
    cases h3 : isinstance mn PyTy.float <;>
    cases h4 : isinstance mx PyTy.float <;> cases h5 : pyLe mn mx <;>
    simp [IntInterval.make, RealInterval.make, pyGt, h1, h2, h3, h4, h5]

/-- `discreteCheck` signals a value error exactly for an illegal dtype. -/
theorem discreteCheck_valueError_iff (values : List PyVal) (t : PyTy) :
    discreteCheck values t = Except.error PyError.valueError ↔
      t ∉ ([PyTy.int, PyTy.float, PyTy.bool, PyTy.str] : List PyTy) := by
  unfold discreteCheck
  split_ifs with hmem hall <;> simp [hmem]

/-- `discreteCheck` signals a type error exactly for a legal dtype with a
mismatching element. -/
theorem discreteCheck_typeError_iff (values : List PyVal) (t : PyTy) :
    discreteCheck values t = Except.error PyError.typeError ↔
      t ∈ ([PyTy.int, PyTy.float, PyTy.bool, PyTy.str] : List PyTy) ∧
        ∃ v ∈ values, isinstance v t = false := by
  unfold discreteCheck
  split_ifs with hmem hall
  · simp only [hmem, true_and]
    constructor
    · intro hh
      exact absurd hh (by simp)
    · rintro ⟨v, hv, hf⟩
      exact absurd (List.all_eq_true.mp hall v hv) (by simp [hf])
  · simp only [hmem, true_and]
    constructor
    · intro _
      rw [List.all_eq_true] at hall
      push_neg at hall
      obtain ⟨v, hv, hnv⟩ := hall
      exact ⟨v, hv, by simpa using hnv⟩
    · intro _
      trivial
  · simp [hmem]

/-- `discreteCheck` succeeds exactly for a legal dtype with every element
an instance of it. -/
theorem discreteCheck_ok_iff (values : List PyVal) (t : PyTy) :
    (∃ d, discreteCheck values t = Except.ok d) ↔
      t ∈ ([PyTy.int, PyTy.float, PyTy.bool, PyTy.str] : List PyTy) ∧
        ∀ v ∈ values, isinstance v t = true := by
  unfold discreteCheck
  split_ifs with hmem hall
  · simp only [hmem, true_and]
    constructor
    · intro _
      exact List.all_eq_true.mp hall
    · intro _
      exact ⟨_, rfl⟩
  · simp only [hmem, true_and]
    constructor
    · rintro ⟨d, hd⟩
      exact absurd hd (by simp)
    · intro hforall
      exact absurd (List.all_eq_true.mpr hforall) hall
  · constructor
    · rintro ⟨d, hd⟩
      exact absurd hd (by simp)
    · rintro ⟨hm, -⟩
      exact absurd hm hmem

/-- Claim C6: `Discrete(values, dtype)` resolves the dtype as the explicit
argument or else the type of the first element (`resolveDtype`); it
signals a value error exactly when nothing resolves (empty list and no
dtype) or the resolved dtype is outside `{int, float, bool, str}`,
signals a type error exactly when the resolved dtype is legal but some
element fails `isinstance` against it (e.g. `Discrete(["a", 1])`), and
succeeds exactly when the resolved dtype is legal and every element
passes — in particular `Discrete([], dtype=str)` succeeds with empty
stored values. -/
theorem discrete_construction_validation (values : List PyVal)
    (dtype : Option PyTy) :
    (Discrete.make values dtype = Except.error PyError.valueError ↔
      resolveDtype values dtype = none ∨
        (∃ t, resolveDtype values dtype = some t ∧
          t ∉ ([PyTy.int, PyTy.float, PyTy.bool, PyTy.str] : List PyTy))) ∧
    (Discrete.make values dtype = Except.error PyError.typeError ↔
      ∃ t, resolveDtype values dtype = some t ∧
        t ∈ ([PyTy.int, PyTy.float, PyTy.bool, PyTy.str] : List PyTy) ∧
        ∃ v ∈ values, isinstance v t = false) ∧
    ((∃ d, Discrete.make values dtype = Except.ok d) ↔
      ∃ t, resolveDtype values dtype = some t ∧
        t ∈ ([PyTy.int, PyTy.float, PyTy.bool, PyTy.str] : List PyTy) ∧
        ∀ v ∈ values, isinstance v t = true) ∧
    Discrete.make [] (some PyTy.str) =
      Except.ok (Domain.discrete [] PyTy.str) := by
  have main : ∀ (vals : List PyVal) (t : PyTy),
      Discrete.make vals dtype = discreteCheck vals t →
      resolveDtype vals dtype = some t →
      (Discrete.make vals dtype = Except.error PyError.valueError ↔
        resolveDtype vals dtype = none ∨
          (∃ u, resolveDtype vals dtype = some u ∧
            u ∉ ([PyTy.int, PyTy.float, PyTy.bool, PyTy.str] : List PyTy))) ∧
      (Discrete.make vals dtype = Except.error PyError.typeError ↔
        ∃ u, resolveDtype vals dtype = some u ∧
          u ∈ ([PyTy.int, PyTy.float, PyTy.bool, PyTy.str] : List PyTy) ∧
          ∃ v ∈ vals, isinstance v u = false) ∧
      ((∃ d, Discrete.make vals dtype = Except.ok d) ↔
        ∃ u, resolveDtype vals dtype = some u ∧
          u ∈ ([PyTy.int, PyTy.float, PyTy.bool, PyTy.str] : List PyTy) ∧
          ∀ v ∈ vals, isinstance v u = true) := by
    intro vals t he hr
    rw [he, hr]
    refine ⟨?_, ?_, ?_⟩
    · rw [discreteCheck_valueError_iff]
      constructor
      · intro h
        exact Or.inr ⟨t, rfl, h⟩
      · rintro (h | ⟨u, hu, h⟩)
        · exact absurd h (by simp)
        · injection hu with hu
          subst hu
          exact h
    · rw [discreteCheck_typeError_iff]
      constructor
      · rintro ⟨hm, hex⟩
        exact ⟨t, rfl, hm, hex⟩
      · rintro ⟨u, hu, hm, hex⟩
        injection hu with hu
        subst hu
        exact ⟨hm, hex⟩
    · rw [discreteCheck_ok_iff]
      constructor
      · rintro ⟨hm, hall⟩
        exact ⟨t, rfl, hm, hall⟩
      · rintro ⟨u, hu, hm, hall⟩
        injection hu with hu
        subst hu
        exact ⟨hm, hall⟩
  cases dtype with
  | none =>
      cases values with
      | nil =>
          refine ⟨?_, ?_, ?_, rfl⟩ <;> simp [Discrete.make, resolveDtype]
      | cons v vs =>
          obtain ⟨a, b, c⟩ := main (v :: vs) (typeOf v) rfl rfl
          exact ⟨a, b, c, rfl⟩
  | some t =>
      obtain ⟨a, b, c⟩ := main values t rfl rfl
      exact ⟨a, b, c, rfl⟩

/-- Reading a freshly allocated list object returns its contents. -/
theorem PyHeap.read_alloc_new {α : Type} (h : PyHeap α) (xs : List α) :
    (h.alloc xs).1.read (h.alloc xs).2 = xs := by
  simp [PyHeap.alloc, PyHeap.read, List.getD_eq_getElem?_getD,
    List.getElem?_concat_length]

/-- Allocation does not disturb existing list objects. -/
theorem PyHeap.read_alloc_old {α : Type} (h : PyHeap α) (xs : List α)
    (r : Nat) (hr : r < h.cells.length) : (h.alloc xs).1.read r = h.read r := by
  simp [PyHeap.alloc, PyHeap.read, List.getD_eq_getElem?_getD,
    List.getElem?_append_left hr]

/-- Mutating one list object does not disturb a different one. -/
theorem PyHeap.read_write_ne {α : Type} (h : PyHeap α) (r w : Nat)
    (xs : List α) (hne : w ≠ r) : (h.write w xs).read r = h.read r := by
  simp [PyHeap.write, PyHeap.read, List.getD_eq_getElem?_getD,
    List.getElem?_set_ne hne]

/-- `list(-)` of a cell reads as the cell's contents. -/
theorem PyHeap.listCopy_read_new {α : Type} (h : PyHeap α) (src : Nat) :
    (h.listCopy src).1.read (h.listCopy src).2 = h.read src :=
  PyHeap.read_alloc_new h (h.read src)

/-- Claim C7: the `Experiment` constructor stores an independent copy of a
list-valued input (`self._hparams = list(hparams)`, likewise metrics),
and each accessor call returns a fresh copy (`return list(self._hparams)`).
With `h1, self` the heap and internal cell after construction from the
caller's list `src`, and `h2, ret` the heap and returned cell after an
accessor call: the internal copy equals the construction-time input;
mutating the caller's list afterwards does not change what the
experiment (any accessor or `summary_pb`, which read cell `self`)
observes; the accessor's result equals those contents; and mutating the
returned list does not change what a subsequent accessor call returns. -/
theorem experiment_defensive_copies {α : Type} (h0 : PyHeap α) (src : Nat)
    (hsrc : src < h0.cells.length) (ys zs : List α)
    (h1 : PyHeap α) (self : Nat) (hinit : h0.listCopy src = (h1, self))
    (h2 : PyHeap α) (ret : Nat) (hacc : h1.listCopy self = (h2, ret)) :
    h1.read self = h0.read src ∧
    (h1.write src ys).read self = h0.read src ∧
    h2.read ret = h0.read src ∧
    ((h2.write ret zs).listCopy self).1.read
      ((h2.write ret zs).listCopy self).2 = h0.read src := by
  have hh1 : h1 = (h0.listCopy src).1 := by rw [hinit]
  have hself : self = (h0.listCopy src).2 := by rw [hinit]
  subst hh1
  subst hself
  have hh2 : h2 = ((h0.listCopy src).1.listCopy (h0.listCopy src).2).1 := by
    rw [hacc]
  have hret : ret = ((h0.listCopy src).1.listCopy (h0.listCopy src).2).2 := by
    rw [hacc]
  subst hh2
  subst hret
  have e1 : (h0.listCopy src).1.read (h0.listCopy src).2 = h0.read src :=
    PyHeap.read_alloc_new h0 (h0.read src)
  have hlen0 : (h0.listCopy src).2 = h0.cells.length := rfl
  have hlen1 : (h0.listCopy src).1.cells.length = h0.cells.length + 1 := by
    show (h0.cells ++ [h0.read src]).length = h0.cells.length + 1
    simp
  have hlen2 : ((h0.listCopy src).1.listCopy (h0.listCopy src).2).2 =
      (h0.listCopy src).1.cells.length := rfl
  have hne1 : src ≠ (h0.listCopy src).2 := by omega
  have hne2 : ((h0.listCopy src).1.listCopy (h0.listCopy src).2).2 ≠
      (h0.listCopy src).2 := by omega
  have hlt : (h0.listCopy src).2 < (h0.listCopy src).1.cells.length := by omega
  have e2 : ((h0.listCopy src).1.listCopy (h0.listCopy src).2).1.read
      ((h0.listCopy src).1.listCopy (h0.listCopy src).2).2 =
      (h0.listCopy src).1.read (h0.listCopy src).2 :=
    PyHeap.read_alloc_new (h0.listCopy src).1 _
  have e3 : ((h0.listCopy src).1.listCopy (h0.listCopy src).2).1.read
      (h0.listCopy src).2 = (h0.listCopy src).1.read (h0.listCopy src).2 :=
    PyHeap.read_alloc_old (h0.listCopy src).1 _ (h0.listCopy src).2 hlt
  refine ⟨e1, ?_, e2.trans e1, ?_⟩
  · rw [PyHeap.read_write_ne (h0.listCopy src).1 (h0.listCopy src).2 src ys
      hne1]
    exact e1
  · rw [PyHeap.listCopy_read_new, PyHeap.read_write_ne _ _ _ zs hne2, e3, e1]

/-- Witness for C7: a two-cell heap of `Nat` lists, constructing from cell
0, then mutating the caller's list and the accessor's result. -/
theorem experiment_defensive_copies_witness :
    (⟨[[0], [1]]⟩ : PyHeap Nat).listCopy 0 = (⟨[[0], [1], [0]]⟩, 2) ∧
    ((⟨[[0], [1], [0]]⟩ : PyHeap Nat).read 2 = (⟨[[0], [1]]⟩ : PyHeap Nat).read 0 ∧
     ((⟨[[0], [1], [0]]⟩ : PyHeap Nat).write 0 [5]).read 2 =
       (⟨[[0], [1]]⟩ : PyHeap Nat).read 0 ∧
     (⟨[[0], [1], [0], [0]]⟩ : PyHeap Nat).read 3 =
       (⟨[[0], [1]]⟩ : PyHeap Nat).read 0 ∧
     (((⟨[[0], [1], [0], [0]]⟩ : PyHeap Nat).write 3 [6]).listCopy 2).1.read
       (((⟨[[0], [1], [0], [0]]⟩ : PyHeap Nat).write 3 [6]).listCopy 2).2 =
       (⟨[[0], [1]]⟩ : PyHeap Nat).read 0) :=
  ⟨rfl, experiment_defensive_copies ⟨[[0], [1]]⟩ 0 (by simp) [5] [6]
    ⟨[[0], [1], [0]]⟩ 2 rfl ⟨[[0], [1], [0], [0]]⟩ 3 rfl⟩

/-- Claim C8: `Metric` construction signals a value error exactly when the
dataset-type argument is non-null and neither `Metric.TRAINING` nor
`Metric.VALIDATION` (e.g. `Metric("loss", dataset_type="bogus")`); with
`None` or either sentinel it succeeds regardless of the other arguments,
storing them verbatim. -/
theorem metric_construction_validation (tag group display_name
    description : Option String) :
    (∀ v, Metric.make tag group display_name description (.notDataset v) =
      Except.error PyError.valueError) ∧
    Metric.make tag group display_name description .pyNone =
      Except.ok ⟨tag, group, display_name, description, none⟩ ∧
    Metric.make tag group display_name description
        (.dataset Metric.TRAINING) =
      Except.ok ⟨tag, group, display_name, description, some Metric.TRAINING⟩ ∧
    Metric.make tag group display_name description
        (.dataset Metric.VALIDATION) =
      Except.ok ⟨tag, group, display_name, description,
        some Metric.VALIDATION⟩ ∧
    (∀ t, Metric.make tag group display_name description (.dataset t) =
      Except.ok ⟨tag, group, display_name, description, some t⟩) :=
  ⟨fun _ => rfl, rfl, rfl, rfl, fun _ => rfl⟩

/-- Claim C9: `HParam` construction signals its error (a `ValueError`, at
construction time rather than summary time) exactly when the domain
argument is neither absent nor a `Domain` instance (e.g.
`HParam("x", domain=42)`); with `None` or any `Domain` it succeeds for
any name, storing the arguments verbatim. -/
theorem hparam_construction_validation (name display_name
    description : Option String) :
    (∀ v, HParam.make name (.notDomain v) display_name description =
      Except.error PyError.valueError) ∧
    HParam.make name .pyNone display_name description =
      Except.ok ⟨name, none, display_name, description⟩ ∧
    (∀ d, HParam.make name (.dom d) display_name description =
      Except.ok ⟨name, some d, display_name, description⟩) :=
  ⟨fun _ => rfl, rfl, fun _ => rfl⟩

/-- Claim C10: `IntInterval` accepts Python booleans as bounds, because
`isinstance(-, int)` holds of a `bool` (`bool` is a subtype of `int`):
for booleans `b1 ≤ b2` under the bool-as-int order, construction
succeeds with the boolean arguments stored unchanged, the domain reports
dtype `int`, and the `min_value`/`max_value` accessors return the
booleans themselves. -/
theorem int_interval_accepts_bool (b1 b2 : Bool)
    (h : pyLe (.bool b1) (.bool b2) = true) :
    IntInterval.make (.bool b1) (.bool b2) =
      Except.ok (.intInterval (.bool b1) (.bool b2)) ∧
    (Domain.intInterval (.bool b1) (.bool b2)).dtype = PyTy.int ∧
    (Domain.intInterval (.bool b1) (.bool b2)).min_value =
      some (.bool b1) ∧
    (Domain.intInterval (.bool b1) (.bool b2)).max_value =
      some (.bool b2) := by
  refine ⟨?_, rfl, rfl, rfl⟩
  unfold IntInterval.make
  have h1 : isinstance (.bool b1) PyTy.int = true := rfl
  have h2 : isinstance (.bool b2) PyTy.int = true := rfl
  have h3 : pyGt (.bool b1) (.bool b2) = false := by
    simp [pyGt, h]
  rw [h1, h2, h3]
  rfl

/-- Witness for C10: `IntInterval(False, True)` constructs successfully
with dtype `int` and the boolean bounds unchanged. -/
theorem int_interval_accepts_bool_witness :
    IntInterval.make (.bool false) (.bool true) =
      Except.ok (.intInterval (.bool false) (.bool true)) ∧
    (Domain.intInterval (.bool false) (.bool true)).dtype = PyTy.int ∧
    (Domain.intInterval (.bool false) (.bool true)).min_value =
      some (.bool false) ∧
    (Domain.intInterval (.bool false) (.bool true)).max_value =
      some (.bool true) :=
  int_interval_accepts_bool false true (by decide)
